import Mathlib

/-!
Verification of the movie-recommender repository's ingestion, embedding and
recommendation code, as a shallow embedding in Lean 4.

Source files modelled here:
  database/db.py                      (DatabaseManager: save_movie, movie_exists)
  database/queries.py                 (MovieQueries.find_similar_movies)
  recommendation_engine.py            (MovieRecommendationEngine.recommend_by_movie_id)
  scripts/recommendation_engine.py    (scripts-layer MovieRecommendationEngine)
  scripts/fetch_yts_data.py           (ingestion pipeline: process_movie_batch, main)
  scripts/generate_embeddings.py      (OllamaEmbedding, sync backfill pipeline)
  scripts/generate_embeddings_async.py (AsyncEmbeddingGenerator)

External effects (network responses, the Postgres engine's evaluation of
pgvector distance operators) are passed in as explicit oracle arguments;
the relational store is passed as explicit state.  Vector components and
distances are modelled as rationals.
-/

namespace MovieRec

/-- Embedding vectors (pgvector columns), with rational components. -/
abbrev Vec := List ℚ

/-! ## Data model (database/models.py)

`Movie.external_id` carries a UNIQUE constraint in `models.py`; the store model
enforces it at commit time, mirroring Postgres raising an IntegrityError when a
row with a duplicate `external_id` is inserted. -/

/-- A row of the `movies` table: internal primary key and the YTS external id. -/
structure MovieRow where
  id : Nat
  external_id : Nat
  deriving DecidableEq, Repr

/-- Incoming catalog payload consumed by `save_movie` (`movie_data` dict):
the external id under key `id` plus the genre-name list.  The many scalar
columns copied verbatim into the row are not modelled field-by-field. -/
structure MovieData where
  id : Nat
  genres : List String
  deriving DecidableEq, Repr

/-- The relational store: `movies`, `genres` (unique names) and the
`movie_genres` join table, with the sequence that assigns internal ids. -/
structure DB where
  movies : List MovieRow
  genres : List String
  movieGenres : List (Nat × String)
  nextId : Nat
  deriving DecidableEq, Repr

/-- Model of `DatabaseManager.movie_exists` / the `filter_by(external_id=...)` pre-check:
whether some movie row already carries this external id. -/
def movie_exists (db : DB) (external_id : Nat) : Bool :=
  db.movies.any (fun m => m.external_id == external_id)

/-- Model of `DatabaseManager.get_or_create_genre`: look the name up, insert it if absent. -/
def get_or_create_genre (db : DB) (name : String) : DB :=
  if db.genres.contains name then db
  else { db with genres := db.genres ++ [name] }

/-- The genre loop of `save_movie`: for each name, get-or-create the genre row
and link it to the movie unless already linked. -/
def add_genres (db : DB) (movieId : Nat) (names : List String) : DB :=
  names.foldl
    (fun acc name =>
      let acc := get_or_create_genre acc name
      if acc.movieGenres.contains (movieId, name) then acc
      else { acc with movieGenres := acc.movieGenres ++ [(movieId, name)] })
    db

/-- Result triple of `save_movie`: `(success, movie_id, message)`. -/
structure SaveResult where
  success : Bool
  movie_id : Option Nat
  message : String
  deriving DecidableEq, Repr

/-- First phase of `save_movie`: the pre-check
`session.query(Movie).filter_by(external_id=...).first()` executed against the
snapshot the transaction reads, returning the existing internal id if any. -/
def save_movie_precheck (db : DB) (external_id : Nat) : Option Nat :=
  (db.movies.find? (fun m => m.external_id == external_id)).map (fun m => m.id)

/-- Second phase of `save_movie`: acting on the pre-check.  A hit returns
`already_exists` with the existing id and no write.  A miss inserts the row and
its genre links; if by commit time another transaction has already committed a
row with the same `external_id`, the UNIQUE constraint on
`movies.external_id` fires, `get_session` rolls the transaction back, and the
`except` clause of `save_movie` turns the IntegrityError into
`(False, None, str(e))`. -/
def save_movie_commit (precheck : Option Nat) (data : MovieData) (db : DB) :
    SaveResult × DB :=
  match precheck with
  | some mid => (⟨true, some mid, "already_exists"⟩, db)
  | none =>
    if movie_exists db data.id then
      (⟨false, none, "duplicate key value violates unique constraint"⟩, db)
    else
      let mid := db.nextId
      let db := { db with
        movies := db.movies ++ [⟨mid, data.id⟩],
        nextId := db.nextId + 1 }
      (⟨true, some mid, "created"⟩, add_genres db mid data.genres)

/-- Model of `DatabaseManager.save_movie` run without interference: the pre-check reads
the same state the commit acts on. -/
def save_movie (data : MovieData) (db : DB) : SaveResult × DB :=
  save_movie_commit (save_movie_precheck db data.id) data db

/-- Two workers calling `save_movie` for the same external id, both pre-checks
racing past before either insert commits (both read `db0`): the first commit
wins, the second hits the UNIQUE constraint.  Returns both results and the
final store. -/
def save_movie_race (d1 d2 : MovieData) (db0 : DB) :
    SaveResult × SaveResult × DB :=
  let p1 := save_movie_precheck db0 d1.id
  let p2 := save_movie_precheck db0 d2.id
  let (r1, db1) := save_movie_commit p1 d1 db0
  let (r2, db2) := save_movie_commit p2 d2 db1
  (r1, r2, db2)

/-- Modelled from the spec: `DatabaseManager.get_existing_movie_ids`, invoked
by `fetch_yts_data.main` but not defined anywhere under the repository's
sources (only its call site exists).  Spec contract
`existsBatch(externalIds[]) → set(externalId)`: one batched round trip
returning the subset of the given external ids already present in the store. -/
def get_existing_movie_ids (db : DB) (ids : List Nat) : List Nat :=
  (ids.filter (fun i => movie_exists db i)).dedup

/-- Structural worker for `chunkList`: the fuel bounds the number of chunks
and always suffices when it is at least the list length. -/
def chunkListFuel {α : Type} (n : Nat) : Nat → List α → List (List α)
  | _, [] => []
  | 0, xs => [xs]
  | fuel + 1, x :: xs =>
    match n with
    | 0 => [x :: xs]
    | m + 1 => (x :: xs.take m) :: chunkListFuel n fuel (xs.drop m)

/-- The list-slicing loop `[xs[i:i+n] for i in range(0, len(xs), n)]` used by
both pipelines to split the work list into fixed-size batches. -/
def chunkList {α : Type} (n : Nat) (xs : List α) : List (List α) :=
  chunkListFuel n xs.length xs

/-! ## Ingestion pipeline (scripts/fetch_yts_data.py) -/

namespace FetchYts

/-- The shared `counter_dict` (success/failed/skipped/completed), incremented
under `counter_dict['lock']`; the per-worker `results` dict receives the same
increments, so one structure models both. -/
structure Tally where
  completed : Nat
  success : Nat
  failed : Nat
  skipped : Nat
  deriving DecidableEq, Repr

def Tally.init : Tally := ⟨0, 0, 0, 0⟩

/-- The sum the final report adds up: success + failed + skipped. -/
def Tally.buckets (t : Tally) : Nat := t.success + t.failed + t.skipped

/-- One iteration of the `for movie_id in movie_ids_batch` loop in
`process_movie_batch`: fetch details (network oracle), save through the
gateway, classify into exactly one bucket.  `fetch_movie_details` returns
`None` on any error, and a raised exception inside the loop body is also
counted as failed by the inner `except`. -/
def processItem (fetch : Nat → Option MovieData) (st : DB × Tally) (movie_id : Nat) :
    DB × Tally :=
  let (db, t) := st
  match fetch movie_id with
  | some data =>
    let (r, db') := save_movie data db
    if r.success then
      if r.message == "already_exists" then
        (db', { t with skipped := t.skipped + 1, completed := t.completed + 1 })
      else
        (db', { t with success := t.success + 1, completed := t.completed + 1 })
    else
      (db', { t with failed := t.failed + 1, completed := t.completed + 1 })
  | none => (db, { t with failed := t.failed + 1, completed := t.completed + 1 })

/-- Model of `process_movie_batch`: the whole batch loop. -/
def process_movie_batch (fetch : Nat → Option MovieData) (batch : List Nat)
    (st : DB × Tally) : DB × Tally :=
  batch.foldl (processItem fetch) st

/-- Model of `pool.map_async(process_movie_batch, batch_args)`: every batch is processed
and every increment reaches the shared counters; the aggregate counts are
interleaving-independent, so the pool is modelled as a fold over the batches. -/
def process_batches (fetch : Nat → Option MovieData) (batches : List (List Nat))
    (st : DB × Tally) : DB × Tally :=
  batches.foldl (fun s b => process_movie_batch fetch b s) st

/-- Outcome of `fetch_yts_data.main`: the three early returns and the final
printed report. -/
inductive RunSummary
  | noIds
  | allExist (existing : Nat)
  | report (checked existing attempted success skipped failed : Nat)
  deriving DecidableEq, Repr

def summaryIsReport : RunSummary → Bool
  | .report _ _ _ _ _ _ => true
  | _ => false

/-- The work-list comprehension in `main`:
`[mid for mid in movie_ids if mid not in existing_ids]`. -/
def new_movie_ids (db : DB) (ids : List Nat) : List Nat :=
  ids.filter (fun mid => !((get_existing_movie_ids db ids).contains mid))

/-- Model of `fetch_yts_data.main` after ID collection: batch-check existing ids, filter
the work list, early-return when it is empty, otherwise dispatch the chunked
batches to the pool and report the final counter values. -/
def ingestion_main (fetch : Nat → Option MovieData) (batch_size : Nat)
    (ids : List Nat) (db : DB) : RunSummary × DB :=
  if ids.isEmpty then (.noIds, db)
  else
    let existing := get_existing_movie_ids db ids
    let newIds := new_movie_ids db ids
    if newIds.isEmpty then (.allExist existing.length, db)
    else
      let batches := chunkList batch_size newIds
      let (db', t) := process_batches fetch batches (db, Tally.init)
      (.report ids.length existing.length newIds.length t.success t.skipped t.failed, db')

end FetchYts

/-! ## Synchronous embedding backfill (scripts/generate_embeddings.py) -/

namespace GenEmb

/-- Python truthiness of an optional string field (`if movie.title:`). -/
def truthyStr : Option String → Bool
  | none => false
  | some s => !(s == "")

/-- Python truthiness of an optional numeric field (`if movie.year:`). -/
def truthyNat : Option Nat → Bool
  | none => false
  | some n => !(n == 0)

/-- The columns of `Movie` read by `create_movie_text`, plus the genre and
cast relations (cast entries reduced to the names the function uses). -/
structure EMovie where
  id : Nat
  title : Option String
  year : Option Nat
  genres : List String
  description_full : Option String
  description_intro : Option String
  casts : List String
  language : Option String
  rating : Option ℚ
  deriving DecidableEq, Repr

/-- Model of `create_movie_text`: the canonical textual summary, present fields only,
joined by " | ". -/
def create_movie_text (m : EMovie) : String :=
  let parts : List String :=
    (if truthyStr m.title then ["Title: " ++ m.title.getD ""] else [])
    ++ (if truthyNat m.year then ["Year: " ++ toString (m.year.getD 0)] else [])
    ++ (if m.genres.isEmpty then [] else ["Genres: " ++ String.intercalate ", " m.genres])
    ++ (if truthyStr m.description_full then
          ["Description: " ++ m.description_full.getD ""]
        else if truthyStr m.description_intro then
          ["Description: " ++ m.description_intro.getD ""]
        else [])
    ++ (if m.casts.isEmpty then [] else ["Cast: " ++ String.intercalate ", " (m.casts.take 5)])
    ++ (if truthyStr m.language then ["Language: " ++ m.language.getD ""] else [])
    ++ (match m.rating with
        | some r => if r == 0 then [] else ["Rating: " ++ toString r ++ "/10"]
        | none => [])
  String.intercalate " | " parts

/-- Store state seen by the backfill: movies and the one-to-one
`movie_embeddings` table. -/
structure EmbDB where
  movies : List EMovie
  embeddings : List (Nat × Vec)
  deriving DecidableEq, Repr

/-- Model of the check `session.query(MovieEmbedding).filter_by(movie_id=...).first() is not None`. -/
def embedding_exists (db : EmbDB) (mid : Nat) : Bool :=
  db.embeddings.any (fun p => p.1 == mid)

def lookup_movie (db : EmbDB) (mid : Nat) : Option EMovie :=
  db.movies.find? (fun m => m.id == mid)

/-- Model of `save_embedding`: upsert — overwrite the row if present, insert otherwise. -/
def save_embedding (mid : Nat) (v : Vec) (db : EmbDB) : EmbDB :=
  if embedding_exists db mid then
    { db with embeddings := db.embeddings.map (fun p => if p.1 == mid then (mid, v) else p) }
  else
    { db with embeddings := db.embeddings ++ [(mid, v)] }

/-- Outcome of one HTTP round trip to the Ollama embedding endpoint, as the
client code can observe it: a response with a status code and (for 200) a
parseable embedding or not, a requests timeout, or any other raised exception. -/
inductive HttpOutcome
  | resp (status : Nat) (body : Option Vec)
  | timeoutExc
  | otherExc
  deriving DecidableEq, Repr

/-- Model of `OllamaEmbedding.encode`: status 200 with a parseable body yields the
vector; a 200 whose JSON lacks the `embedding` key raises inside the `try` and
is caught by `except Exception`; non-200, timeout and any other exception all
return `None`.  No retry loop exists. -/
def encode (o : HttpOutcome) : Option Vec :=
  match o with
  | .resp status body =>
    if status == 200 then
      match body with
      | some e => some e
      | none => none
    else none
  | .timeoutExc => none
  | .otherExc => none

/-- The function `encode` together with the requests it issues: a single POST with the
client's configured timeout, consuming only the first oracle entry. -/
def encode_run (T : Nat) (oracle : Nat → HttpOutcome) : Option Vec × List Nat :=
  (encode (oracle 0), [T])

/-- Outcome of the startup probe `requests.get(f"{host}/api/tags", timeout=5)`:
a response carrying a status and the served model names, a connection error,
or any other raised exception. -/
inductive ProbeOutcome
  | resp (status : Nat) (models : List String)
  | connectionError
  | otherExc (msg : String)
  deriving DecidableEq, Repr

/-- What `_test_connection` logs on a response: server running (with whether
the configured model was found among the served names) or a non-200 status. -/
inductive ConnReport
  | serverRunning (modelAvailable : Bool)
  | serverStatus (status : Nat)
  deriving DecidableEq, Repr

def charsLeadWith : List Char → List Char → Bool
  | [], _ => true
  | _ :: _, [] => false
  | a :: as, b :: bs => a == b && charsLeadWith as bs

def charsContain (needle : List Char) : List Char → Bool
  | [] => charsLeadWith needle []
  | b :: bs => charsLeadWith needle (b :: bs) || charsContain needle bs

/-- Python's `needle in hay` on strings: substring containment. -/
def strContains (hay needle : String) : Bool :=
  charsContain needle.toList hay.toList

/-- Model of `OllamaEmbedding._test_connection`: a 200 response only *logs* whether the
model is among the served names (`any(self.model in name ...)`); a non-200
response only logs an error line; the method re-raises solely when the probe
request itself raised (ConnectionError or any other exception). -/
def test_connection (model : String) (probe : ProbeOutcome) : Except String ConnReport :=
  match probe with
  | .resp status models =>
    if status == 200 then
      .ok (.serverRunning (models.any (fun name => strContains name model)))
    else
      .ok (.serverStatus status)
  | .connectionError => .error "Cannot connect to Ollama"
  | .otherExc msg => .error msg

/-- Model of `generate_embedding_for_movie`: load the movie, build its text, bail out
(returning `None`) when the movie is missing or the stripped text is shorter
than 10 characters — both before any service call — otherwise call `encode`.
The second component records the ids for which the embedding service was
actually called. -/
def generate_embedding_for_movie (enc : Nat → HttpOutcome) (db : EmbDB) (mid : Nat) :
    Option Vec × List Nat :=
  match lookup_movie db mid with
  | none => (none, [])
  | some m =>
    let txt := create_movie_text m
    if txt.trim.length < 10 then (none, [])
    else (encode (enc mid), [mid])

/-- Per-run tallies of the backfill pipelines. -/
structure Stats3 where
  success : Nat
  failed : Nat
  skipped : Nat
  deriving DecidableEq, Repr

/-- The sum the final report adds up: success + failed + skipped. -/
def Stats3.buckets (s : Stats3) : Nat := s.success + s.failed + s.skipped

/-- One iteration of the loop in `generate_embeddings.process_movie_batch`:
the existing-embedding check runs first — unconditionally, whatever mode the
surrounding `main` ran in — and skips without calling the service; otherwise
generate and save.  (`save_embedding`'s own failure path is a database error,
not modelled; a raised exception is counted as failed by the `except`.) -/
def processOne (enc : Nat → HttpOutcome) (st : EmbDB × Stats3 × List Nat) (mid : Nat) :
    EmbDB × Stats3 × List Nat :=
  let (db, t, calls) := st
  if embedding_exists db mid then
    (db, { t with skipped := t.skipped + 1 }, calls)
  else
    let (r, cs) := generate_embedding_for_movie enc db mid
    match r with
    | some v => (save_embedding mid v db, { t with success := t.success + 1 }, calls ++ cs)
    | none => (db, { t with failed := t.failed + 1 }, calls ++ cs)

/-- Model of `generate_embeddings.process_movie_batch`: the whole batch loop. -/
def process_movie_batch (enc : Nat → HttpOutcome) (batch : List Nat)
    (st : EmbDB × Stats3 × List Nat) : EmbDB × Stats3 × List Nat :=
  batch.foldl (processOne enc) st

/-- Model of `get_movies_without_embeddings`: ids of movies with no embedding row. -/
def get_movies_without_embeddings (db : EmbDB) : List Nat :=
  (db.movies.filter (fun m => !(embedding_exists db m.id))).map (fun m => m.id)

/-- Outcome of `generate_embeddings.main`: early return when nothing is
selected, else the final report `(total, success, skipped, failed)`. -/
inductive EmbSummary
  | allDone
  | report (total success skipped failed : Nat)
  deriving DecidableEq, Repr

/-- Model of `generate_embeddings.main`: under force mode select *all* movie ids, else
only those without embeddings; chunk and dispatch to the pool (modelled as a
fold — the counts are interleaving-independent); report the counters.  The
third component accumulates the ids for which the embedding service was
called. -/
def sync_main (force_regenerate : Bool) (batch_size : Nat) (enc : Nat → HttpOutcome)
    (db : EmbDB) : EmbSummary × EmbDB × List Nat :=
  let movie_ids :=
    if force_regenerate then db.movies.map (fun m => m.id)
    else get_movies_without_embeddings db
  if movie_ids.isEmpty then (.allDone, db, [])
  else
    let batches := chunkList batch_size movie_ids
    let (db', t, calls) :=
      batches.foldl (fun s b => process_movie_batch enc b s) (db, ⟨0, 0, 0⟩, [])
    (.report movie_ids.length t.success t.skipped t.failed, db', calls)

end GenEmb

/-! ## Async embedding generator (scripts/generate_embeddings_async.py) -/

namespace GenEmbAsync

open GenEmb (HttpOutcome Stats3)

/-- Status field of one task's result dict. -/
inductive EmbStatus
  | success (embedding : Vec)
  | skipped
  | error
  | timeout
  deriving DecidableEq, Repr

/-- The retry loop `for attempt in range(max_retries + 1)` of
`AsyncEmbeddingGenerator.generate_embedding`, over the listed attempt indices.
Per attempt the request timeout is `OLLAMA_TIMEOUT * (attempt + 1)`; a 200
response with a parseable embedding succeeds, any other response or exception
returns status `error`, and a timeout either continues to the next attempt or,
on the last one, returns status `timeout`.  The empty-list case is the
unreachable fall-through `return {... 'status': 'error'}` after the loop.
The second component lists the per-request timeouts actually used. -/
def runAttempts (T : Nat) (oracle : Nat → HttpOutcome) :
    List Nat → EmbStatus × List Nat
  | [] => (.error, [])
  | a :: rest =>
    let tmo := T * (a + 1)
    match oracle a with
    | .resp status body =>
      if status == 200 then
        match body with
        | some e => (.success e, [tmo])
        | none => (.error, [tmo])
      else (.error, [tmo])
    | .otherExc => (.error, [tmo])
    | .timeoutExc =>
      if rest.isEmpty then (.timeout, [tmo])
      else
        let (s, ts) := runAttempts T oracle rest
        (s, tmo :: ts)

/-- Model of `AsyncEmbeddingGenerator.generate_embedding`: when `skip_existing` is set
and the movie already has an embedding the task is marked skipped before any
request; otherwise the retry loop runs.  `has_existing` is the result of
`check_existing_embedding` against the store. -/
def generate_embedding (skip_existing has_existing : Bool) (T max_retries : Nat)
    (oracle : Nat → HttpOutcome) : EmbStatus × List Nat :=
  if skip_existing && has_existing then (.skipped, [])
  else runAttempts T oracle (List.range (max_retries + 1))

/-- The columns selected by `get_movies_text_batch` (id, title,
description_full). -/
structure AMovie where
  id : Nat
  title : Option String
  description_full : Option String
  deriving DecidableEq, Repr

/-- Store state seen by the async generator. -/
structure ADB where
  movies : List AMovie
  movieGenres : List (Nat × String)
  embeddings : List (Nat × Vec)
  deriving DecidableEq, Repr

def aembedding_exists (db : ADB) (mid : Nat) : Bool :=
  db.embeddings.any (fun p => p.1 == mid)

def movie_genres_of (db : ADB) (mid : Nat) : List String :=
  (db.movieGenres.filter (fun p => p.1 == mid)).map (fun p => p.2)

/-- The text assembled per movie inside `get_movies_text_batch` (and
`get_movie_text`): title, description, genres — present parts joined by a
space; the genres part appears only when the genre join produced rows. -/
def amovie_text (db : ADB) (m : AMovie) : String :=
  let parts : List String :=
    (if GenEmb.truthyStr m.title then ["Title: " ++ m.title.getD ""] else [])
    ++ (if GenEmb.truthyStr m.description_full then
          ["Description: " ++ m.description_full.getD ""] else [])
    ++ (let gs := movie_genres_of db m.id
        if gs.isEmpty then [] else ["Genres: " ++ String.intercalate ", " gs])
  String.intercalate " " parts

/-- Model of `get_movies_text_batch`: load the ids in chunks of `batch_size`, building
the `movie_texts` dict (modelled as an association list). -/
def get_movies_text_batch (db : ADB) (ids : List Nat) (batch_size : Nat) :
    List (Nat × String) :=
  ((chunkList batch_size ids).map (fun batch =>
    (db.movies.filter (fun m => batch.contains m.id)).map
      (fun m => (m.id, amovie_text db m)))).flatten

/-- Model of `movie_texts.get(movie_id, "")`. -/
def lookupText (texts : List (Nat × String)) (mid : Nat) : String :=
  ((texts.find? (fun p => p.1 == mid)).map (fun p => p.2)).getD ""

/-- The ids for which `generate_batch_from_ids` creates a task: the loop
guards task creation with `if text:`, so an id whose text is empty gets no
task at all. -/
def movieTasks (db : ADB) (ids : List Nat) (batch_size : Nat) : List Nat :=
  let texts := get_movies_text_batch db ids batch_size
  ids.filter (fun mid => !(lookupText texts mid == ""))

/-- The `stats` update in the `as_completed` loop: `success` and `skipped`
count their own statuses, everything else counts as failed. -/
def countStatus (s : Stats3) (st : EmbStatus) : Stats3 :=
  match st with
  | .success _ => { s with success := s.success + 1 }
  | .skipped => { s with skipped := s.skipped + 1 }
  | _ => { s with failed := s.failed + 1 }

/-- Model of `AsyncEmbeddingGenerator.generate_batch_from_ids`: load texts, create one
task per id with non-empty text, run them (the per-movie oracle gives each
task's HTTP outcomes; completion order only permutes the results, leaving the
counts unchanged, so tasks are modelled in submission order), and tally. -/
def generate_batch_from_ids (db : ADB) (T max_retries : Nat)
    (oracle : Nat → Nat → HttpOutcome) (ids : List Nat) (skip_existing : Bool)
    (batch_size : Nat) : List (Nat × EmbStatus) × Stats3 :=
  let tasks := movieTasks db ids batch_size
  let results := tasks.map (fun mid =>
    (mid, (generate_embedding skip_existing (aembedding_exists db mid) T max_retries
            (oracle mid)).1))
  (results, results.foldl (fun s r => countStatus s r.2) ⟨0, 0, 0⟩)

end GenEmbAsync

/-! ## Query layer (database/queries.py, recommendation_engine.py,
scripts/recommendation_engine.py) -/

namespace Queries

/-- The three pgvector distance operators (`<=>`, `<->`, `<#>`), evaluated by
Postgres, hence parameters of the model.  pgvector's `<#>` is the *negated*
inner product. -/
structure MetricFns where
  cosineDist : Vec → Vec → ℚ
  l2Dist : Vec → Vec → ℚ
  innerProductDist : Vec → Vec → ℚ

/-- Store state seen by the query layer: movie ids and the embeddings table. -/
structure VecDB where
  movieIds : List Nat
  embeddings : List (Nat × Vec)
  deriving DecidableEq, Repr

def lookup_embedding (db : VecDB) (mid : Nat) : Option Vec :=
  (db.embeddings.find? (fun p => p.1 == mid)).map (fun p => p.2)

/-- Metric-name dispatch shared by `find_similar_movies` and the root engine:
the distance of a stored embedding from the target, or `none` for an unknown
metric name (the `raise ValueError` branch). -/
def metricDistExpr (fns : MetricFns) (metric : String) (target : Vec) :
    Option (Vec → ℚ) :=
  if metric == "cosine" then some (fun e => fns.cosineDist e target)
  else if metric == "l2" then some (fun e => fns.l2Dist e target)
  else if metric == "inner_product" then some (fun e => fns.innerProductDist e target)
  else none

/-- The `JOIN movie_embeddings ... WHERE m.id != movie_id` row set with the
labelled distance column. -/
def distanceRows (dist : Vec → ℚ) (db : VecDB) (movie_id : Nat) : List (Nat × ℚ) :=
  (db.embeddings.filter (fun p => db.movieIds.contains p.1 && !(p.1 == movie_id))).map
    (fun p => (p.1, dist p.2))

def insertAsc (x : Nat × ℚ) : List (Nat × ℚ) → List (Nat × ℚ)
  | [] => [x]
  | y :: ys => if x.2 ≤ y.2 then x :: y :: ys else y :: insertAsc x ys

/-- Model of `ORDER BY distance` (ascending), as a stable insertion sort. -/
def sortAscByDist (l : List (Nat × ℚ)) : List (Nat × ℚ) :=
  l.foldr insertAsc []

def insertDesc (x : Nat × ℚ) : List (Nat × ℚ) → List (Nat × ℚ)
  | [] => [x]
  | y :: ys => if y.2 ≤ x.2 then x :: y :: ys else y :: insertDesc x ys

/-- Model of `ORDER BY distance DESC`. -/
def sortDescByDist (l : List (Nat × ℚ)) : List (Nat × ℚ) :=
  l.foldr insertDesc []

/-- Model of `MovieQueries.find_similar_movies`: no embedding for the query movie →
empty list (before the metric is even looked at); unknown metric →
`ValueError`; otherwise the joined rows excluding the query movie, ordered by
ascending distance (the ORM query orders by the `'distance'` label for every
metric), truncated to `limit`. -/
def find_similar_movies (fns : MetricFns) (db : VecDB) (movie_id limit : Nat)
    (metric : String) : Except String (List (Nat × ℚ)) :=
  match lookup_embedding db movie_id with
  | none => .ok []
  | some emb =>
    match metricDistExpr fns metric emb with
    | none => .error ("Unknown distance metric: " ++ metric)
    | some d => .ok ((sortAscByDist (distanceRows d db movie_id)).take limit)

end Queries

namespace Engine

open Queries

/-- The similarity conversion on line 122 of `recommendation_engine.py` (root
engine): `float(1 - row.distance) if distance_metric == 'cosine' else
float(row.distance)`. -/
def rootSimilarity (metric : String) (d : ℚ) : ℚ :=
  if metric == "cosine" then 1 - d else d

/-- The root engine's raw SQL row set: join, exclude the query movie, order by
the distance ascending — or descending for `inner_product` — and truncate. -/
def root_sorted_rows (fns : MetricFns) (db : VecDB) (movie_id limit : Nat)
    (metric : String) (emb : Vec) : List (Nat × ℚ) :=
  let d := (metricDistExpr fns metric emb).getD (fun _ => 0)
  let rows := distanceRows d db movie_id
  (if metric == "inner_product" then sortDescByDist rows else sortAscByDist rows).take limit

/-- Model of `MovieRecommendationEngine.recommend_by_movie_id` of the root
`recommendation_engine.py`: empty when the query movie has no embedding,
`ValueError` on an unknown metric (it has no `except` wrapper), otherwise the
sorted rows with each distance converted by `rootSimilarity`. -/
def recommend_by_movie_id (fns : MetricFns) (db : VecDB) (movie_id limit : Nat)
    (metric : String) : Except String (List (Nat × ℚ)) :=
  match lookup_embedding db movie_id with
  | none => .ok []
  | some emb =>
    match metricDistExpr fns metric emb with
    | none => .error ("Unknown distance metric: " ++ metric)
    | some _ =>
      .ok ((root_sorted_rows fns db movie_id limit metric emb).map
        (fun p => (p.1, rootSimilarity metric p.2)))

/-- The similarity conversion on lines 91–96 of
`scripts/recommendation_engine.py`: `1 - distance` for cosine, `-distance` for
inner_product, the distance itself otherwise. -/
def scriptsSimilarity (metric : String) (d : ℚ) : ℚ :=
  if metric == "cosine" then 1 - d
  else if metric == "inner_product" then -d
  else d

/-- Model of `recommend_by_movie_id` of `scripts/recommendation_engine.py`: delegates
to `MovieQueries.find_similar_movies` and converts each distance with
`scriptsSimilarity`; its blanket `except Exception` turns any raised error
(including the unknown-metric `ValueError`) into an empty list. -/
def scripts_recommend_by_movie_id (fns : MetricFns) (db : VecDB)
    (movie_id limit : Nat) (metric : String) : List (Nat × ℚ) :=
  match Queries.find_similar_movies fns db movie_id limit metric with
  | .error _ => []
  | .ok rows => rows.map (fun p => (p.1, scriptsSimilarity metric p.2))

end Engine

/-! ## Concrete fixtures used by witnesses and counterexamples -/

/-- Equality of `Except` results is decidable componentwise (needed to
evaluate the query-layer functions on concrete fixtures). -/
instance {ε α : Type} [DecidableEq ε] [DecidableEq α] : DecidableEq (Except ε α) :=
  fun x y =>
    match x, y with
    | .error a, .error b =>
      if h : a = b then isTrue (by rw [h])
      else isFalse (by intro hc; cases hc; exact h rfl)
    | .error _, .ok _ => isFalse (by intro hc; cases hc)
    | .ok _, .error _ => isFalse (by intro hc; cases hc)
    | .ok a, .ok b =>
      if h : a = b then isTrue (by rw [h])
      else isFalse (by intro hc; cases hc; exact h rfl)

/-- Rational dot product, used to instantiate the pgvector operator
parameters on concrete inputs. -/
def dotQ : Vec → Vec → ℚ
  | [], _ => 0
  | _, [] => 0
  | a :: as, b :: bs => a * b + dotQ as bs

/-- A concrete instantiation of the three pgvector operators: `<#>` is the
negated inner product, as pgvector defines it. -/
def sampleFns : Queries.MetricFns :=
  { cosineDist := fun a b => 1 - dotQ a b
    l2Dist := fun a b => dotQ a b - 1
    innerProductDist := fun a b => -(dotQ a b) }

/-- A movie whose canonical text easily passes the 10-character check. -/
def matrixMovie : GenEmb.EMovie :=
  ⟨1, some "The Matrix", some 1999, ["Action", "Sci-Fi"],
   some "A computer hacker learns about the true nature of reality", none,
   ["Keanu Reeves", "Carrie-Anne Moss"], some "English", some 8⟩

/-- A backfill store where movie 1 already has an embedding. -/
def matrixDB : GenEmb.EmbDB := ⟨[matrixMovie], [(1, [2])]⟩

/-- A two-movie vector store for the query-layer witnesses. -/
def twoMovieVecDB : Queries.VecDB := ⟨[1, 2], [(1, [1, 0]), (2, [0, 1])]⟩

/-- A store of 400 movies with external ids 0–399, for the batched-existence
witness. -/
def batchCheckStore : DB :=
  ⟨(List.range 400).map (fun i => ⟨i, i⟩), [], [], 400⟩

/-- A list of 1000 collected external ids, of which the first 400 are already stored. -/
def batchCheckIds : List Nat := List.range 1000

/-! # Theorems -/

/-! ## Facts about `save_movie` -/

theorem movie_exists_of_mem {db : DB} {m : MovieRow} (h : m ∈ db.movies) :
    movie_exists db m.external_id = true := by
  simp [movie_exists]
  exact ⟨m, h, rfl⟩

theorem save_movie_precheck_none_iff (db : DB) (e : Nat) :
    save_movie_precheck db e = none ↔ movie_exists db e = false := by
  simp [save_movie_precheck, movie_exists, List.find?_eq_none, List.any_eq_false]

theorem add_genres_movies (db : DB) (mid : Nat) (names : List String) :
    (add_genres db mid names).movies = db.movies := by
  induction names generalizing db with
  | nil => rfl
  | cons n ns ih =>
    simp only [add_genres, List.foldl_cons] at ih ⊢
    rw [ih]
    simp only [get_or_create_genre]
    split <;> split <;> rfl

/-- After a non-racing `save_movie`, the external id is present in the store. -/
theorem save_movie_creates (data : MovieData) (db : DB) :
    movie_exists (save_movie data db).2 data.id = true := by
  cases hp : save_movie_precheck db data.id with
  | some mid =>
    have hex : movie_exists db data.id = true := by
      by_contra hne
      have hb : movie_exists db data.id = false := by
        cases h : movie_exists db data.id
        · rfl
        · exact absurd h hne
      rw [(save_movie_precheck_none_iff db data.id).2 hb] at hp; cases hp
    simpa [save_movie, save_movie_commit, hp] using hex
  | none =>
    have hne : movie_exists db data.id = false :=
      (save_movie_precheck_none_iff db data.id).1 hp
    simp only [save_movie, save_movie_commit, hp]
    rw [if_neg (by simp [hne])]
    simp [movie_exists, add_genres_movies]

/-- The operation `save_movie` never removes rows: presence of any external id is preserved. -/
theorem save_movie_preserves (data : MovieData) (db : DB) (e : Nat)
    (h : movie_exists db e = true) :
    movie_exists (save_movie data db).2 e = true := by
  cases hp : save_movie_precheck db data.id with
  | some mid => simpa [save_movie, save_movie_commit, hp] using h
  | none =>
    have hne : movie_exists db data.id = false :=
      (save_movie_precheck_none_iff db data.id).1 hp
    simp only [save_movie, save_movie_commit, hp]
    rw [if_neg (by simp [hne])]
    simp only [movie_exists, add_genres_movies, List.any_append, Bool.or_eq_true]
    exact Or.inl h

/-! ## C1 — duplicate saves: `already_exists` on a pre-check hit, but a racing
save returns a *failed* result -/

/-- C1 (amended): a `save_movie` whose pre-check finds the external id returns
`already_exists` with the existing internal id and mutates nothing; of two
saves for the same fresh external id whose pre-checks both race past before
either commits, exactly the first returns `created` — but the loser's
IntegrityError is caught and surfaced as a failed result (`success = False`,
duplicate-key message), not as `already_exists`. -/
theorem c1_save_already_exists_and_race (data d1 d2 : MovieData) (db db0 : DB)
    (mid : Nat) (hpre : save_movie_precheck db data.id = some mid)
    (hfresh : movie_exists db0 d1.id = false) (hsame : d2.id = d1.id) :
    save_movie data db = (⟨true, some mid, "already_exists"⟩, db)
    ∧ (save_movie_race d1 d2 db0).1 = ⟨true, some db0.nextId, "created"⟩
    ∧ (save_movie_race d1 d2 db0).2.1 =
        ⟨false, none, "duplicate key value violates unique constraint"⟩ := by
  have hp1 : save_movie_precheck db0 d1.id = none :=
    (save_movie_precheck_none_iff db0 d1.id).2 hfresh
  have hp2 : save_movie_precheck db0 d2.id = none := by rw [hsame]; exact hp1
  obtain ⟨r1, db1, e1⟩ : ∃ r1 db1, save_movie_commit none d1 db0 = (r1, db1) :=
    ⟨_, _, rfl⟩
  have hr1 : r1 = ⟨true, some db0.nextId, "created"⟩ := by
    have h := e1
    simp only [save_movie_commit] at h
    rw [if_neg (by simp [hfresh])] at h
    rw [Prod.ext_iff] at h
    exact h.1.symm
  have hdb1ex : movie_exists db1 d2.id = true := by
    have h := save_movie_creates d1 db0
    rw [hsame]
    unfold save_movie at h
    rw [hp1, e1] at h
    simpa using h
  have e2 : save_movie_commit none d2 db1
      = (⟨false, none, "duplicate key value violates unique constraint"⟩, db1) := by
    simp only [save_movie_commit]
    rw [if_pos hdb1ex]
  have hrace : save_movie_race d1 d2 db0
      = (r1, ⟨false, none, "duplicate key value violates unique constraint"⟩, db1) := by
    simp only [save_movie_race, hp1, hp2, e1, e2]
  refine ⟨by simp [save_movie, save_movie_commit, hpre], ?_, ?_⟩
  · rw [hrace]; exact hr1
  · rw [hrace]

/-- C1 witness: the amended theorem applied to a store already holding
external id 101 under internal id 7, and to a race of two saves of the fresh
external id 202 over an empty store. -/
theorem c1_save_already_exists_and_race_witness :
    save_movie ⟨101, ["Action"]⟩ ⟨[⟨7, 101⟩], [], [], 8⟩
      = (⟨true, some 7, "already_exists"⟩, ⟨[⟨7, 101⟩], [], [], 8⟩)
    ∧ (save_movie_race ⟨202, []⟩ ⟨202, []⟩ ⟨[], [], [], 1⟩).1 = ⟨true, some 1, "created"⟩
    ∧ (save_movie_race ⟨202, []⟩ ⟨202, []⟩ ⟨[], [], [], 1⟩).2.1 =
        ⟨false, none, "duplicate key value violates unique constraint"⟩ :=
  c1_save_already_exists_and_race ⟨101, ["Action"]⟩ ⟨202, []⟩ ⟨202, []⟩
    ⟨[⟨7, 101⟩], [], [], 8⟩ ⟨[], [], [], 1⟩ 7 (by decide) (by decide) rfl

/-- C1 counterexample: two saves of external id 101 racing past the pre-check
over an empty store — the loser's result is `success = False` with the
duplicate-key message, not `already_exists`, refuting "every other returns
alreadyExists, never a failed result". -/
theorem c1_race_returns_failed_counterexample :
    (save_movie_race ⟨101, []⟩ ⟨101, []⟩ ⟨[], [], [], 1⟩).2.1.success = false
    ∧ (save_movie_race ⟨101, []⟩ ⟨101, []⟩ ⟨[], [], [], 1⟩).2.1.message ≠
        "already_exists" := by
  decide

/-! ## C2 — counter conservation -/

theorem fy_processItem_buckets (fetch : Nat → Option MovieData) (db : DB)
    (t : FetchYts.Tally) (mid : Nat) :
    ((FetchYts.processItem fetch (db, t) mid).2).buckets = t.buckets + 1 := by
  simp only [FetchYts.processItem, FetchYts.Tally.buckets]
  cases fetch mid with
  | none => simp; omega
  | some d =>
    obtain ⟨r, db', e⟩ : ∃ r db', save_movie d db = (r, db') := ⟨_, _, rfl⟩
    by_cases hs : r.success <;> by_cases hm : r.message == "already_exists" <;>
      simp [e, hs, hm] <;> omega

theorem fy_batch_buckets (fetch : Nat → Option MovieData) (batch : List Nat)
    (db : DB) (t : FetchYts.Tally) :
    ((FetchYts.process_movie_batch fetch batch (db, t)).2).buckets
      = t.buckets + batch.length := by
  induction batch generalizing db t with
  | nil => rfl
  | cons m ms ih =>
    simp only [FetchYts.process_movie_batch, List.foldl_cons] at ih ⊢
    obtain ⟨db1, t1, e⟩ : ∃ db1 t1, FetchYts.processItem fetch (db, t) m = (db1, t1) :=
      ⟨_, _, rfl⟩
    rw [e, ih]
    have h1 : t1.buckets = t.buckets + 1 := by
      have := fy_processItem_buckets fetch db t m
      rw [e] at this
      simpa using this
    simp only [List.length_cons]
    omega

theorem fy_batches_buckets (fetch : Nat → Option MovieData)
    (batches : List (List Nat)) (db : DB) (t : FetchYts.Tally) :
    ((FetchYts.process_batches fetch batches (db, t)).2).buckets
      = t.buckets + batches.flatten.length := by
  induction batches generalizing db t with
  | nil => rfl
  | cons b bs ih =>
    simp only [FetchYts.process_batches, List.foldl_cons] at ih ⊢
    obtain ⟨db1, t1, e⟩ : ∃ db1 t1,
        FetchYts.process_movie_batch fetch b (db, t) = (db1, t1) := ⟨_, _, rfl⟩
    rw [e, ih]
    have h1 : t1.buckets = t.buckets + b.length := by
      have := fy_batch_buckets fetch b db t
      rw [e] at this
      simpa using this
    simp only [List.flatten_cons, List.length_append]
    omega

theorem chunkListFuel_flatten {α : Type} (n : Nat) (fuel : Nat) :
    ∀ (xs : List α), xs.length ≤ fuel → (chunkListFuel n fuel xs).flatten = xs := by
  induction fuel with
  | zero =>
    intro xs h
    cases xs with
    | nil => simp [chunkListFuel]
    | cons x xs => simp at h
  | succ f ih =>
    intro xs h
    cases xs with
    | nil => simp [chunkListFuel]
    | cons x xs =>
      cases n with
      | zero => simp [chunkListFuel]
      | succ m =>
        simp only [chunkListFuel, List.flatten_cons]
        rw [ih (xs.drop m) (by simp at h ⊢; omega)]
        simp [List.cons_append, List.take_append_drop]

theorem chunkList_flatten {α : Type} (n : Nat) (xs : List α) :
    (chunkList n xs).flatten = xs :=
  chunkListFuel_flatten n xs.length xs le_rfl

theorem async_countStatus_buckets (s : GenEmb.Stats3) (st : GenEmbAsync.EmbStatus) :
    (GenEmbAsync.countStatus s st).buckets = s.buckets + 1 := by
  cases st <;> simp [GenEmbAsync.countStatus, GenEmb.Stats3.buckets] <;> omega

theorem async_fold_countStatus_buckets (l : List (Nat × GenEmbAsync.EmbStatus))
    (s : GenEmb.Stats3) :
    (l.foldl (fun s r => GenEmbAsync.countStatus s r.2) s).buckets
      = s.buckets + l.length := by
  induction l generalizing s with
  | nil => rfl
  | cons r rs ih =>
    simp only [List.foldl_cons, List.length_cons]
    rw [ih, async_countStatus_buckets]
    omega

/-- C2 (amended): counter conservation holds exactly for the ingestion
pipeline — over any work list, batch size and store,
`success + failed + skipped` of the final tallies equals the number of items
submitted.  For the async embedding backfill it holds only over the items for
which a task was created: `generate_batch_from_ids` guards task creation with
`if text:`, so `success + failed + skipped` equals the number of submitted ids
whose textualization is non-empty; an id with empty text lands in no bucket. -/
theorem c2_counter_conservation (fetch : Nat → Option MovieData) (bs : Nat)
    (ids : List Nat) (db : DB) (adb : GenEmbAsync.ADB) (T mr : Nat)
    (orc : Nat → Nat → GenEmb.HttpOutcome) (aids : List Nat) (sk : Bool)
    (abs : Nat) :
    ((FetchYts.process_batches fetch (chunkList bs ids) (db, FetchYts.Tally.init)).2).buckets
      = ids.length
    ∧ ((GenEmbAsync.generate_batch_from_ids adb T mr orc aids sk abs).2).buckets
      = (GenEmbAsync.movieTasks adb aids abs).length := by
  constructor
  · rw [fy_batches_buckets, chunkList_flatten]
    simp [FetchYts.Tally.init, FetchYts.Tally.buckets]
  · simp only [GenEmbAsync.generate_batch_from_ids]
    rw [async_fold_countStatus_buckets]
    simp [GenEmb.Stats3.buckets]

/-- C2 counterexample: one movie (id 5) with no title, no description and no
genres is submitted to the async backfill; its text is empty, no task is
created, and the run's tallies sum to 0, not to the 1 item submitted. -/
theorem c2_async_drops_item_counterexample :
    ¬ (((GenEmbAsync.generate_batch_from_ids ⟨[⟨5, none, none⟩], [], []⟩ 30 2
          (fun _ _ => GenEmb.HttpOutcome.resp 200 (some [1])) [5] true 1000).2).buckets
        = ([5] : List Nat).length) := by
  decide

/-! ## C3 — rerunning ingestion over the same window -/

theorem fy_processItem_preserves (fetch : Nat → Option MovieData)
    (st : DB × FetchYts.Tally) (mid e : Nat) (h : movie_exists st.1 e = true) :
    movie_exists (FetchYts.processItem fetch st mid).1 e = true := by
  obtain ⟨db, t⟩ := st
  simp only [FetchYts.processItem]
  cases fetch mid with
  | none => exact h
  | some d =>
    obtain ⟨r, db', ed⟩ : ∃ r db', save_movie d db = (r, db') := ⟨_, _, rfl⟩
    have := save_movie_preserves d db e h
    rw [ed] at this
    by_cases hs : r.success <;> by_cases hm : r.message == "already_exists" <;>
      simp [ed, hs, hm] <;> exact this

theorem fy_processItem_creates (fetch : Nat → Option MovieData)
    (st : DB × FetchYts.Tally) (mid : Nat) (g : List String)
    (hf : fetch mid = some ⟨mid, g⟩) :
    movie_exists (FetchYts.processItem fetch st mid).1 mid = true := by
  obtain ⟨db, t⟩ := st
  simp only [FetchYts.processItem, hf]
  obtain ⟨r, db', ed⟩ : ∃ r db', save_movie ⟨mid, g⟩ db = (r, db') := ⟨_, _, rfl⟩
  have := save_movie_creates ⟨mid, g⟩ db
  rw [ed] at this
  by_cases hs : r.success <;> by_cases hm : r.message == "already_exists" <;>
    simp [ed, hs, hm] <;> exact this

theorem fy_batch_preserves (fetch : Nat → Option MovieData) (batch : List Nat)
    (st : DB × FetchYts.Tally) (e : Nat) (h : movie_exists st.1 e = true) :
    movie_exists (FetchYts.process_movie_batch fetch batch st).1 e = true := by
  induction batch generalizing st with
  | nil => exact h
  | cons m ms ih =>
    simp only [FetchYts.process_movie_batch, List.foldl_cons] at ih ⊢
    exact ih (FetchYts.processItem fetch st m) (fy_processItem_preserves fetch st m e h)

theorem fy_batch_creates (fetch : Nat → Option MovieData) (batch : List Nat)
    (st : DB × FetchYts.Tally)
    (hf : ∀ id ∈ batch, ∃ g, fetch id = some ⟨id, g⟩) :
    ∀ id ∈ batch, movie_exists (FetchYts.process_movie_batch fetch batch st).1 id = true := by
  induction batch generalizing st with
  | nil => intro id hid; cases hid
  | cons m ms ih =>
    intro id hid
    simp only [FetchYts.process_movie_batch, List.foldl_cons]
    rcases List.mem_cons.1 hid with hh | ht
    · subst hh
      obtain ⟨g, hg⟩ := hf id (List.mem_cons_self _ _)
      exact fy_batch_preserves fetch ms _ id
        (fy_processItem_creates fetch st id g hg)
    · exact ih (FetchYts.processItem fetch st m)
        (fun i hi => hf i (List.mem_cons_of_mem _ hi)) id ht

theorem fy_batches_preserves (fetch : Nat → Option MovieData)
    (batches : List (List Nat)) (st : DB × FetchYts.Tally) (e : Nat)
    (h : movie_exists st.1 e = true) :
    movie_exists (FetchYts.process_batches fetch batches st).1 e = true := by
  induction batches generalizing st with
  | nil => exact h
  | cons b bs ih =>
    simp only [FetchYts.process_batches, List.foldl_cons] at ih ⊢
    exact ih (FetchYts.process_movie_batch fetch b st)
      (fy_batch_preserves fetch b st e h)

theorem fy_batches_creates (fetch : Nat → Option MovieData)
    (batches : List (List Nat)) (st : DB × FetchYts.Tally)
    (hf : ∀ id ∈ batches.flatten, ∃ g, fetch id = some ⟨id, g⟩) :
    ∀ id ∈ batches.flatten,
      movie_exists (FetchYts.process_batches fetch batches st).1 id = true := by
  induction batches generalizing st with
  | nil => intro id hid; cases hid
  | cons b bs ih =>
    intro id hid
    simp only [FetchYts.process_batches, List.foldl_cons]
    simp only [List.flatten_cons, List.mem_append] at hid
    rcases hid with hh | ht
    · refine fy_batches_preserves fetch bs _ id ?_
      exact fy_batch_creates fetch b st
        (fun i hi => hf i (by rw [List.flatten_cons]; exact List.mem_append.2 (Or.inl hi)))
        id hh
    · exact ih (FetchYts.process_movie_batch fetch b st)
        (fun i hi => hf i (by rw [List.flatten_cons]; exact List.mem_append.2 (Or.inr hi)))
        id ht

theorem mem_get_existing_movie_ids (db : DB) (ids : List Nat) (i : Nat) :
    i ∈ get_existing_movie_ids db ids ↔ i ∈ ids ∧ movie_exists db i = true := by
  simp [get_existing_movie_ids, List.mem_dedup, List.mem_filter]

/-- Every collected id is present in the store after `ingestion_main`, given
that detail fetches succeed and return matching ids. -/
theorem fy_main_all_saved (fetch : Nat → Option MovieData) (b : Nat)
    (ids : List Nat) (db0 : DB)
    (hf : ∀ id ∈ ids, ∃ g, fetch id = some ⟨id, g⟩) :
    ∀ id ∈ ids, movie_exists (FetchYts.ingestion_main fetch b ids db0).2 id = true := by
  intro id hid
  by_cases hemp : ids.isEmpty
  · rw [List.isEmpty_iff] at hemp; subst hemp; cases hid
  · simp only [FetchYts.ingestion_main, hemp, Bool.false_eq_true, if_false]
    have hmemnew : movie_exists db0 id = false → id ∈ FetchYts.new_movie_ids db0 ids := by
      intro hex
      simp only [FetchYts.new_movie_ids, List.mem_filter]
      refine ⟨hid, ?_⟩
      have hnm : id ∉ get_existing_movie_ids db0 ids := by
        intro hmem
        rw [((mem_get_existing_movie_ids db0 ids id).1 hmem).2] at hex
        cases hex
      simpa using hnm
    by_cases hnew : (FetchYts.new_movie_ids db0 ids).isEmpty
    · simp only [hnew, if_true]
      cases hex : movie_exists db0 id with
      | true => rfl
      | false =>
        exfalso
        have h1 := hmemnew hex
        rw [List.isEmpty_iff] at hnew
        rw [hnew] at h1
        cases h1
    · simp only [hnew, Bool.false_eq_true, if_false]
      cases hex : movie_exists db0 id with
      | true => exact fy_batches_preserves fetch _ (db0, FetchYts.Tally.init) id hex
      | false =>
        have hflat : id ∈ (chunkList b (FetchYts.new_movie_ids db0 ids)).flatten := by
          rw [chunkList_flatten]; exact hmemnew hex
        refine fy_batches_creates fetch _ (db0, FetchYts.Tally.init) ?_ id hflat
        intro i hi
        rw [chunkList_flatten] at hi
        exact hf i (List.mem_filter.1 hi).1

/-- C3 (amended): a second ingestion run over the same window creates zero new
rows — but not by reporting `skipped == total`: the rerun's batch-existence
check filters every collected id out, the work list is empty, and the run
terminates early with the zero-work summary (`allExist`), before any batch is
dispatched or any counter exists.  The store is returned unchanged. -/
theorem c3_rerun_terminates_early (fetch : Nat → Option MovieData) (b : Nat)
    (ids : List Nat) (db0 : DB) (hne : ids ≠ []) (hnd : ids.Nodup)
    (hf : ∀ id ∈ ids, ∃ g, fetch id = some ⟨id, g⟩) :
    FetchYts.ingestion_main fetch b ids (FetchYts.ingestion_main fetch b ids db0).2
      = (.allExist ids.length, (FetchYts.ingestion_main fetch b ids db0).2) := by
  have hall := fy_main_all_saved fetch b ids db0 hf
  have hemp : ids.isEmpty = false := by
    cases ids with
    | nil => exact absurd rfl hne
    | cons x xs => rfl
  obtain ⟨s1, db1, e1⟩ : ∃ s1 db1, FetchYts.ingestion_main fetch b ids db0 = (s1, db1) :=
    ⟨_, _, rfl⟩
  rw [e1]
  have hall1 : ∀ id ∈ ids, movie_exists db1 id = true := by
    intro id h
    have := hall id h
    rw [e1] at this
    exact this
  have hexisting : get_existing_movie_ids db1 ids = ids := by
    unfold get_existing_movie_ids
    rw [List.filter_eq_self.2 (fun a ha => hall1 a ha)]
    exact List.dedup_eq_self.2 hnd
  have hnew : FetchYts.new_movie_ids db1 ids = [] := by
    unfold FetchYts.new_movie_ids
    rw [hexisting, List.filter_eq_nil_iff]
    intro a ha
    simpa using ha
  show FetchYts.ingestion_main fetch b ids db1 = (.allExist ids.length, db1)
  simp only [FetchYts.ingestion_main, hemp, Bool.false_eq_true, if_false, hnew,
    List.isEmpty_nil, if_true, hexisting]

/-- C3 witness: the amended theorem applied to the window `[1, 2]` over an
empty store with always-succeeding fetches: the rerun returns the unchanged
store and the `allExist` early-exit summary. -/
theorem c3_rerun_terminates_early_witness :
    FetchYts.ingestion_main (fun i => some ⟨i, []⟩) 20 [1, 2]
        ((FetchYts.ingestion_main (fun i => some ⟨i, []⟩) 20 [1, 2] ⟨[], [], [], 1⟩).2)
      = (.allExist 2,
         (FetchYts.ingestion_main (fun i => some ⟨i, []⟩) 20 [1, 2] ⟨[], [], [], 1⟩).2) :=
  c3_rerun_terminates_early (fun i => some ⟨i, []⟩) 20 [1, 2] ⟨[], [], [], 1⟩
    (by decide) (by decide) (fun id _ => ⟨[], rfl⟩)

/-- C3 counterexample: ingesting the window `[1, 2]` into an empty store and
rerunning — the rerun's outcome is the `allExist` early exit, not a report, so
no final report with `skipped == total` exists (the skipped counter is never
even created). -/
theorem c3_rerun_no_report_counterexample :
    FetchYts.summaryIsReport
      (FetchYts.ingestion_main (fun i => some ⟨i, []⟩) 20 [1, 2]
        ((FetchYts.ingestion_main (fun i => some ⟨i, []⟩) 20 [1, 2] ⟨[], [], [], 1⟩).2)).1
      = false
    ∧ (FetchYts.ingestion_main (fun i => some ⟨i, []⟩) 20 [1, 2]
        ((FetchYts.ingestion_main (fun i => some ⟨i, []⟩) 20 [1, 2] ⟨[], [], [], 1⟩).2)).2
      = (FetchYts.ingestion_main (fun i => some ⟨i, []⟩) 20 [1, 2] ⟨[], [], [], 1⟩).2 := by
  decide

/-! ## C4 — force mode of the synchronous backfill -/

/-- C4 (code bug, evaluated at the failing input): with force mode ON over a
store whose only movie already has an embedding, `main` selects the movie but
`process_movie_batch`'s unconditional existing-embedding check skips it: the
run reports `skipped = 1, success = 0`, makes **zero** calls to the embedding
service, and leaves the stored embedding untouched — although the script's own
`--force` help text promises "Force regenerate all embeddings".  With force
mode OFF the same store yields the zero-work early exit, also without any
service call (the claim's force-off half). -/
theorem c4_force_mode_never_reembeds :
    GenEmb.sync_main true 20 (fun _ => GenEmb.HttpOutcome.resp 200 (some [9])) matrixDB
      = (.report 1 0 1 0, matrixDB, [])
    ∧ GenEmb.sync_main false 20 (fun _ => GenEmb.HttpOutcome.resp 200 (some [9])) matrixDB
      = (.allDone, matrixDB, []) := by
  decide

/-! ## C5 — batched existence check and work-list complement -/

theorem length_filter_not {α : Type} (p : α → Bool) (l : List α) :
    (l.filter (fun a => !(p a))).length = l.length - (l.filter p).length := by
  induction l with
  | nil => rfl
  | cons x xs ih =>
    have hle : (xs.filter p).length ≤ xs.length := List.length_filter_le p xs
    cases hx : p x <;> simp [List.filter_cons, hx, ih] <;> omega

theorem new_movie_ids_eq (db : DB) (ids : List Nat) :
    FetchYts.new_movie_ids db ids = ids.filter (fun mid => !(movie_exists db mid)) := by
  unfold FetchYts.new_movie_ids
  apply List.filter_congr
  intro a ha
  have hc : (get_existing_movie_ids db ids).contains a = movie_exists db a := by
    cases hx : movie_exists db a with
    | true =>
      have hm : a ∈ get_existing_movie_ids db ids :=
        (mem_get_existing_movie_ids db ids a).2 ⟨ha, hx⟩
      simpa using hm
    | false =>
      have hm : a ∉ get_existing_movie_ids db ids := by
        intro hm
        rw [((mem_get_existing_movie_ids db ids a).1 hm).2] at hx
        cases hx
      simpa using hm
  rw [hc]

/-- C5 (confirmed; the batch check itself is modelled from the spec, since
`get_existing_movie_ids` has no definition under the repository sources): the
batched existence check returns exactly the collected ids already present in
the store, the work list is exactly the complement of that subset inside the
collected list, and with 1000 collected ids of which 400 exist the work list
has length exactly 600. -/
theorem c5_work_list_is_complement (db : DB) (ids : List Nat)
    (h1000 : ids.length = 1000)
    (h400 : (ids.filter (fun i => movie_exists db i)).length = 400) :
    (∀ i, i ∈ get_existing_movie_ids db ids ↔ i ∈ ids ∧ movie_exists db i = true)
    ∧ FetchYts.new_movie_ids db ids = ids.filter (fun mid => !(movie_exists db mid))
    ∧ (FetchYts.new_movie_ids db ids).length = 600 := by
  refine ⟨mem_get_existing_movie_ids db ids, new_movie_ids_eq db ids, ?_⟩
  rw [new_movie_ids_eq, length_filter_not, h1000, h400]

set_option maxRecDepth 8000

theorem movie_exists_batchCheckStore (i : Nat) :
    movie_exists batchCheckStore i = decide (i < 400) := by
  by_cases h : i < 400
  · have hx : movie_exists batchCheckStore i = true := by
      simp only [movie_exists, batchCheckStore, List.any_eq_true]
      exact ⟨⟨i, i⟩, List.mem_map.2 ⟨i, List.mem_range.2 h, rfl⟩, by simp⟩
    simp [hx, h]
  · have hx : movie_exists batchCheckStore i = false := by
      simp only [movie_exists, batchCheckStore, List.any_eq_false]
      intro m hm
      obtain ⟨j, hj, rfl⟩ := List.mem_map.1 hm
      have : j ≠ i := by
        intro hji
        exact h (hji ▸ List.mem_range.1 hj)
      simpa using this
    simp [hx, h]

theorem batchCheck_filter_length :
    (batchCheckIds.filter (fun i => movie_exists batchCheckStore i)).length = 400 := by
  have he : batchCheckIds.filter (fun i => movie_exists batchCheckStore i)
      = batchCheckIds.filter (fun i => decide (i < 400)) :=
    List.filter_congr (fun a _ => movie_exists_batchCheckStore a)
  rw [he]
  decide

/-- C5 witness: 1000 collected ids over a store holding ids 0–399 — the work
list has exactly 600 entries. -/
theorem c5_work_list_is_complement_witness :
    (FetchYts.new_movie_ids batchCheckStore batchCheckIds).length = 600 :=
  (c5_work_list_is_complement batchCheckStore batchCheckIds
    (by simp [batchCheckIds]) batchCheck_filter_length).2.2

/-! ## C6 — nearest-neighbor queries never return the query movie -/

theorem mem_insertAsc {x y : Nat × ℚ} {l : List (Nat × ℚ)}
    (h : y ∈ Queries.insertAsc x l) : y = x ∨ y ∈ l := by
  induction l with
  | nil => simpa [Queries.insertAsc] using h
  | cons z zs ih =>
    simp only [Queries.insertAsc] at h
    split at h
    · rcases List.mem_cons.1 h with h1 | h1
      · exact Or.inl h1
      · exact Or.inr h1
    · rcases List.mem_cons.1 h with h1 | h1
      · exact Or.inr (List.mem_cons.2 (Or.inl h1))
      · rcases ih h1 with h2 | h2
        · exact Or.inl h2
        · exact Or.inr (List.mem_cons.2 (Or.inr h2))

theorem mem_sortAscByDist {y : Nat × ℚ} {l : List (Nat × ℚ)}
    (h : y ∈ Queries.sortAscByDist l) : y ∈ l := by
  induction l with
  | nil => simpa [Queries.sortAscByDist] using h
  | cons z zs ih =>
    simp only [Queries.sortAscByDist, List.foldr_cons] at h
    rcases mem_insertAsc h with h1 | h1
    · exact h1 ▸ List.mem_cons_self _ _
    · exact List.mem_cons.2 (Or.inr (ih h1))

theorem mem_insertDesc {x y : Nat × ℚ} {l : List (Nat × ℚ)}
    (h : y ∈ Queries.insertDesc x l) : y = x ∨ y ∈ l := by
  induction l with
  | nil => simpa [Queries.insertDesc] using h
  | cons z zs ih =>
    simp only [Queries.insertDesc] at h
    split at h
    · rcases List.mem_cons.1 h with h1 | h1
      · exact Or.inl h1
      · exact Or.inr h1
    · rcases List.mem_cons.1 h with h1 | h1
      · exact Or.inr (List.mem_cons.2 (Or.inl h1))
      · rcases ih h1 with h2 | h2
        · exact Or.inl h2
        · exact Or.inr (List.mem_cons.2 (Or.inr h2))

theorem mem_sortDescByDist {y : Nat × ℚ} {l : List (Nat × ℚ)}
    (h : y ∈ Queries.sortDescByDist l) : y ∈ l := by
  induction l with
  | nil => simpa [Queries.sortDescByDist] using h
  | cons z zs ih =>
    simp only [Queries.sortDescByDist, List.foldr_cons] at h
    rcases mem_insertDesc h with h1 | h1
    · exact h1 ▸ List.mem_cons_self _ _
    · exact List.mem_cons.2 (Or.inr (ih h1))

theorem mem_distanceRows {d : Vec → ℚ} {db : Queries.VecDB} {movie_id : Nat}
    {p : Nat × ℚ} (h : p ∈ Queries.distanceRows d db movie_id) : p.1 ≠ movie_id := by
  simp only [Queries.distanceRows, List.mem_map, List.mem_filter] at h
  obtain ⟨q, ⟨_, hq⟩, rfl⟩ := h
  simp only [Bool.and_eq_true, Bool.not_eq_eq_eq_not, Bool.not_true,
    beq_eq_false_iff_ne, ne_eq] at hq
  exact hq.2

theorem mem_root_sorted_rows {fns : Queries.MetricFns} {db : Queries.VecDB}
    {movie_id limit : Nat} {metric : String} {emb : Vec} {p : Nat × ℚ}
    (h : p ∈ Engine.root_sorted_rows fns db movie_id limit metric emb) :
    p.1 ≠ movie_id := by
  simp only [Engine.root_sorted_rows] at h
  have h1 := List.mem_of_mem_take h
  split at h1
  · exact mem_distanceRows (mem_sortDescByDist h1)
  · exact mem_distanceRows (mem_sortAscByDist h1)

/-- C6 (confirmed): both nearest-neighbor entry points exclude the query movie
(`WHERE m.id != movie_id` / `.filter(Movie.id != movie_id)`) for every store,
metric and limit; and when the query movie has no embedding both return the
empty list instead of an error. -/
theorem c6_neighbor_query_excludes_self (fns : Queries.MetricFns)
    (db : Queries.VecDB) (X limit : Nat) (metric : String) (l : List (Nat × ℚ)) :
    (Queries.lookup_embedding db X = none →
      Queries.find_similar_movies fns db X limit metric = .ok []
      ∧ Engine.recommend_by_movie_id fns db X limit metric = .ok [])
    ∧ (Queries.find_similar_movies fns db X limit metric = .ok l → ∀ p ∈ l, p.1 ≠ X)
    ∧ (Engine.recommend_by_movie_id fns db X limit metric = .ok l → ∀ p ∈ l, p.1 ≠ X) := by
  refine ⟨?_, ?_, ?_⟩
  · intro hn
    exact ⟨by simp [Queries.find_similar_movies, hn],
           by simp [Engine.recommend_by_movie_id, hn]⟩
  · intro h p hp
    cases he : Queries.lookup_embedding db X with
    | none =>
      simp only [Queries.find_similar_movies, he, Except.ok.injEq] at h
      subst h; cases hp
    | some emb =>
      simp only [Queries.find_similar_movies, he] at h
      cases hm : Queries.metricDistExpr fns metric emb with
      | none => rw [hm] at h; cases h
      | some d =>
        rw [hm] at h
        simp only [Except.ok.injEq] at h
        subst h
        exact mem_distanceRows (mem_sortAscByDist (List.mem_of_mem_take hp))
  · intro h p hp
    cases he : Queries.lookup_embedding db X with
    | none =>
      simp only [Engine.recommend_by_movie_id, he, Except.ok.injEq] at h
      subst h; cases hp
    | some emb =>
      simp only [Engine.recommend_by_movie_id, he] at h
      cases hm : Queries.metricDistExpr fns metric emb with
      | none => rw [hm] at h; cases h
      | some d =>
        rw [hm] at h
        simp only [Except.ok.injEq] at h
        subst h
        obtain ⟨q, hq, rfl⟩ := List.mem_map.1 hp
        have h3 : q.1 ≠ X := mem_root_sorted_rows hq
        exact h3

/-- C6 witness: applying the exclusion to a concrete two-movie store with
cosine metric — the returned neighbor of movie 1 is not movie 1. -/
theorem c6_neighbor_query_excludes_self_witness : ((2 : Nat), (1 : ℚ)).1 ≠ 1 := by
  have h : Queries.find_similar_movies sampleFns twoMovieVecDB 1 10 "cosine"
      = .ok [(2, 1)] := by
    simp only [Queries.find_similar_movies, Queries.lookup_embedding,
      Queries.metricDistExpr, Queries.distanceRows, Queries.sortAscByDist,
      Queries.insertAsc, sampleFns, dotQ, twoMovieVecDB]
    norm_num [Queries.insertAsc, dotQ, String.reduceEq, reduceIte]
  exact (c6_neighbor_query_excludes_self sampleFns twoMovieVecDB 1 10 "cosine"
    [(2, 1)]).2.1 h (2, 1) (by decide)

/-! ## C7 — distance-to-similarity conversion -/

/-- C7 (amended): the scripts-layer engine converts distances exactly as the
claim states — `1 − d` for cosine, `−d` for inner product, `d` for euclidean.
The root engine, however, applies `1 − d` for cosine and the **raw distance**
for every other metric, so its inner-product similarity is `d`, not `−d`.
Each engine's output is its row set mapped through its own conversion. -/
theorem c7_similarity_conversion (fns : Queries.MetricFns) (db : Queries.VecDB)
    (mid limit : Nat) (metric : String) (l : List (Nat × ℚ)) (emb : Vec) (d : ℚ) :
    (Queries.find_similar_movies fns db mid limit metric = .ok l →
      Engine.scripts_recommend_by_movie_id fns db mid limit metric
        = l.map (fun p => (p.1, Engine.scriptsSimilarity metric p.2)))
    ∧ Engine.scriptsSimilarity "cosine" d = 1 - d
    ∧ Engine.scriptsSimilarity "inner_product" d = -d
    ∧ Engine.scriptsSimilarity "l2" d = d
    ∧ (Queries.lookup_embedding db mid = some emb →
        Queries.metricDistExpr fns metric emb ≠ none →
        Engine.recommend_by_movie_id fns db mid limit metric
          = .ok ((Engine.root_sorted_rows fns db mid limit metric emb).map
              (fun p => (p.1, Engine.rootSimilarity metric p.2))))
    ∧ Engine.rootSimilarity "cosine" d = 1 - d
    ∧ Engine.rootSimilarity "inner_product" d = d
    ∧ Engine.rootSimilarity "l2" d = d := by
  refine ⟨?_, by rfl, by rfl, by rfl, ?_, by rfl, by rfl, by rfl⟩
  · intro h
    simp [Engine.scripts_recommend_by_movie_id, h]
  · intro h1 h2
    cases hm : Queries.metricDistExpr fns metric emb with
    | none => exact absurd hm h2
    | some dd => simp [Engine.recommend_by_movie_id, h1, hm]

/-- C7 witness: the scripts engine on a concrete store under the euclidean
metric reports the distance itself, via the amended theorem. -/
theorem c7_similarity_conversion_witness :
    Engine.scripts_recommend_by_movie_id sampleFns twoMovieVecDB 1 10 "l2"
      = [(2, -1)] := by
  have e1 : Queries.lookup_embedding twoMovieVecDB 1 = some [1, 0] := rfl
  have e2 : Queries.metricDistExpr sampleFns "l2" [1, 0]
      = some (fun e => sampleFns.l2Dist e [1, 0]) := by
    simp only [Queries.metricDistExpr]
    rw [if_neg (by decide), if_pos (by decide)]
  have h : Queries.find_similar_movies sampleFns twoMovieVecDB 1 10 "l2"
      = .ok [(2, -1)] := by
    simp only [Queries.find_similar_movies]
    rw [e1]
    simp only [e2]
    norm_num [Queries.distanceRows, twoMovieVecDB, Queries.sortAscByDist,
      Queries.insertAsc, sampleFns, dotQ]
  have h2 := (c7_similarity_conversion sampleFns twoMovieVecDB 1 10 "l2"
    [(2, -1)] [] 0).1 h
  rw [h2]
  simp only [List.map_cons, List.map_nil, Engine.scriptsSimilarity]
  rw [if_neg (by decide), if_neg (by decide)]

/-- C7 counterexample: in the root engine with the inner-product metric, the
row distance is −1 (pgvector's negated inner product of `[1,1]` and `[1,0]`),
and the similarity reported is −1 — the raw distance — whereas the claim
demands its negation 1; `(2, 1)` is not among the returned pairs. -/
theorem c7_root_inner_product_counterexample :
    Engine.recommend_by_movie_id sampleFns ⟨[1, 2], [(1, [1, 0]), (2, [1, 1])]⟩
        1 10 "inner_product" = .ok [(2, -1)]
    ∧ ((2 : Nat), -(-1 : ℚ)) ∉ [((2 : Nat), (-1 : ℚ))] := by
  constructor
  · have e1 : Queries.lookup_embedding ⟨[1, 2], [(1, [1, 0]), (2, [1, 1])]⟩ 1
        = some [1, 0] := rfl
    have e2 : Queries.metricDistExpr sampleFns "inner_product" [1, 0]
        = some (fun e => sampleFns.innerProductDist e [1, 0]) := by
      simp only [Queries.metricDistExpr]
      rw [if_neg (by decide), if_neg (by decide), if_pos (by decide)]
    simp only [Engine.recommend_by_movie_id]
    rw [e1]
    simp only [e2, Engine.root_sorted_rows, e2, Option.getD_some]
    rw [if_pos (by decide)]
    norm_num [Queries.distanceRows, Queries.sortDescByDist, Queries.insertDesc,
      sampleFns, dotQ, Engine.rootSimilarity]
    decide
  · intro hm
    have : -(-1 : ℚ) = -1 := by
      have h1 := List.mem_singleton.1 hm
      exact congrArg Prod.snd h1
    norm_num at this

/-! ## C8 — the startup connectivity probe -/

/-- C8 (amended): `_test_connection` raises — aborting client construction —
exactly when the probe request itself raises (connection error or any other
exception).  A response is never fatal: a 200 whose model list lacks the
configured model only logs a warning, and a non-200 status only logs an error;
construction succeeds in both cases. -/
theorem c8_probe_raises_only_on_request_failure (model : String)
    (probe : GenEmb.ProbeOutcome) :
    (∃ e, GenEmb.test_connection model probe = .error e)
      ↔ (probe = .connectionError ∨ ∃ m, probe = .otherExc m) := by
  cases probe with
  | resp s models =>
    simp only [GenEmb.test_connection]
    constructor
    · intro ⟨e, he⟩
      split at he <;> cases he
    · rintro (h | ⟨m, h⟩) <;> cases h
  | connectionError =>
    simp [GenEmb.test_connection]
  | otherExc m =>
    simp [GenEmb.test_connection]

/-- C8 counterexample: a reachable service that does not serve the configured
model (`nomic-embed-text` absent from the tag list) lets construction succeed
with only a logged warning, and so does a 500 response — refuting "if either
check fails, construction raises". -/
theorem c8_missing_model_does_not_raise_counterexample :
    GenEmb.test_connection "nomic-embed-text"
        (.resp 200 ["llama3:latest", "mistral:latest"])
      = .ok (.serverRunning false)
    ∧ GenEmb.test_connection "nomic-embed-text" (.resp 500 [])
      = .ok (.serverStatus 500) := by
  constructor
  · decide
  · decide

/-! ## C9 — async retry discipline on timeouts -/

theorem runAttempts_timeout_step (T : Nat) (orc : Nat → GenEmb.HttpOutcome)
    (a : Nat) (rest : List Nat) (h : orc a = .timeoutExc)
    (hne : rest.isEmpty = false) :
    GenEmbAsync.runAttempts T orc (a :: rest)
      = ((GenEmbAsync.runAttempts T orc rest).1,
         T * (a + 1) :: (GenEmbAsync.runAttempts T orc rest).2) := by
  obtain ⟨st, ts, et⟩ : ∃ st ts, GenEmbAsync.runAttempts T orc rest = (st, ts) :=
    ⟨_, _, rfl⟩
  simp only [GenEmbAsync.runAttempts, h, hne, Bool.false_eq_true, if_false, et]

theorem runAttempts_reqs (T : Nat) (orc : Nat → GenEmb.HttpOutcome) :
    ∀ attempts : List Nat, ∃ k, k ≤ attempts.length ∧
      (GenEmbAsync.runAttempts T orc attempts).2
        = (attempts.take k).map (fun a => T * (a + 1)) := by
  intro attempts
  induction attempts with
  | nil => exact ⟨0, le_rfl, rfl⟩
  | cons a rest ih =>
    cases ho : orc a with
    | resp s b =>
      refine ⟨1, by simp, ?_⟩
      simp only [GenEmbAsync.runAttempts, ho, List.take_succ_cons, List.take_zero,
        List.map_cons, List.map_nil]
      split
      · split <;> rfl
      · rfl
    | otherExc =>
      refine ⟨1, by simp, ?_⟩
      simp [GenEmbAsync.runAttempts, ho]
    | timeoutExc =>
      cases rest with
      | nil =>
        refine ⟨1, by simp, ?_⟩
        simp [GenEmbAsync.runAttempts, ho]
      | cons a2 rest2 =>
        obtain ⟨k, hk, hreq⟩ := ih
        refine ⟨k + 1, by simpa using Nat.succ_le_succ hk, ?_⟩
        rw [runAttempts_timeout_step T orc a (a2 :: rest2) ho rfl]
        simp only [List.take_succ_cons, List.map_cons]
        rw [hreq]

/-- C9 (confirmed, for the async embedding client): a request that times out
is retried at most 2 more times (never more than 3 requests in total), the
per-attempt timeout grows linearly as `base × attempt number`, and when all
attempts time out the task ends with status `timeout` — counted into the
failed bucket by the batch tally, with no exception propagating (the function
is total). -/
theorem c9_timeout_retry_bounded_linear (T : Nat) (sk he : Bool)
    (orc : Nat → GenEmb.HttpOutcome) (h : sk = false ∨ he = false) :
    (∃ k, k ≤ 3 ∧ (GenEmbAsync.generate_embedding sk he T 2 orc).2
        = (List.range k).map (fun a => T * (a + 1)))
    ∧ ((∀ a, a < 3 → orc a = .timeoutExc) →
        (GenEmbAsync.generate_embedding sk he T 2 orc).1 = .timeout
        ∧ GenEmbAsync.countStatus ⟨0, 0, 0⟩
            (GenEmbAsync.generate_embedding sk he T 2 orc).1 = ⟨0, 1, 0⟩) := by
  have hsk : (sk && he) = false := by rcases h with h | h <;> simp [h]
  have hrange : List.range 3 = [0, 1, 2] := by decide
  constructor
  · simp only [GenEmbAsync.generate_embedding, hsk, Bool.false_eq_true, if_false]
    obtain ⟨k, hk, hr⟩ := runAttempts_reqs T orc (List.range (2 + 1))
    refine ⟨k, by simpa using hk, ?_⟩
    rw [hr]
    have hmin : min k 3 = k := by
      simp only [List.length_range] at hk
      omega
    rw [List.take_range, hmin]
  · intro ha
    have h0 := ha 0 (by omega)
    have h1 := ha 1 (by omega)
    have h2 := ha 2 (by omega)
    constructor
    · simp [GenEmbAsync.generate_embedding, hsk, hrange, GenEmbAsync.runAttempts,
        h0, h1, h2]
    · simp [GenEmbAsync.generate_embedding, hsk, hrange, GenEmbAsync.runAttempts,
        h0, h1, h2, GenEmbAsync.countStatus]

/-- C9 witness: with base timeout 7 and every attempt timing out, the task
ends in status `timeout` (counted as failed), with no exception raised. -/
theorem c9_timeout_retry_bounded_linear_witness :
    (GenEmbAsync.generate_embedding false false 7 2
        (fun _ => GenEmb.HttpOutcome.timeoutExc)).1 = .timeout :=
  ((c9_timeout_retry_bounded_linear 7 false false
      (fun _ => GenEmb.HttpOutcome.timeoutExc) (Or.inl rfl)).2
    (fun _ _ => rfl)).1

/-! ## C10 — totality of the synchronous encode -/

/-- C10 (confirmed): `OllamaEmbedding.encode` issues exactly one request with
the configured timeout and no retry, and is total: it returns the embedding
precisely when the response is a 200 carrying a parseable embedding, and
`None` on every other outcome — non-200 status, timeout, malformed 200 body,
or any other exception — never raising. -/
theorem c10_sync_encode_one_shot_total (T : Nat) (orc : Nat → GenEmb.HttpOutcome) :
    (GenEmb.encode_run T orc).2 = [T]
    ∧ (∀ v : Vec, (GenEmb.encode_run T orc).1 = some v
        ↔ orc 0 = .resp 200 (some v)) := by
  refine ⟨rfl, fun v => ?_⟩
  cases h0 : orc 0 with
  | timeoutExc => simp [GenEmb.encode_run, GenEmb.encode, h0]
  | otherExc => simp [GenEmb.encode_run, GenEmb.encode, h0]
  | resp s b =>
    cases b with
    | none => simp [GenEmb.encode_run, GenEmb.encode, h0]
    | some e =>
      by_cases hs : s = 200
      · subst hs
        simp [GenEmb.encode_run, GenEmb.encode, h0, eq_comm]
      · simp [GenEmb.encode_run, GenEmb.encode, h0, hs]

end MovieRec
